import Mathlib

/-
Shallow embedding of the memory-access-control core of the repository:
  src/xen/arch/x86/mm/mem_access.c
  src/xen/arch/x86/mm/mm-locks.h
Pure data (permission encodings, entries, tables) becomes Lean structures;
the stateful C functions become explicit state-passing functions.  Machine
integers that matter only as small enumerations or counters are modelled
as Nat/Int.  External helpers that are part of this repository but are not
under src/ (the recursive spinlock from common/spinlock.c, the flush helper
p2m_unlock_and_tlb_flush and altp2m_get_effective_entry from p2m.c, and the
public enumeration/constant headers) are modelled from the spec and marked
as such in their doc comments.
-/

namespace XenMm

/- Encodings of the access enumerations.  The numeric values follow the
   declaration order of p2m_access_t / xenmem_access_t, which is what the
   designated-initializer tables in mem_access.c rely on.  Modelled from the
   spec (the enumeration headers are part of the repository but not under
   src/): the permission set is n, r, w, rw, x, rx, wx, rwx, rx2rw, n2rwx,
   with a separate "default" marker for xenmem_access_t. -/

def p2m_access_n : Nat := 0

def p2m_access_r : Nat := 1

def p2m_access_w : Nat := 2

def p2m_access_rw : Nat := 3

def p2m_access_x : Nat := 4

def p2m_access_rx : Nat := 5

def p2m_access_wx : Nat := 6

def p2m_access_rwx : Nat := 7

def p2m_access_rx2rw : Nat := 8

def p2m_access_n2rwx : Nat := 9

def XENMEM_access_n : Nat := 0

def XENMEM_access_r : Nat := 1

def XENMEM_access_w : Nat := 2

def XENMEM_access_rw : Nat := 3

def XENMEM_access_x : Nat := 4

def XENMEM_access_rx : Nat := 5

def XENMEM_access_wx : Nat := 6

def XENMEM_access_rwx : Nat := 7

def XENMEM_access_rx2rw : Nat := 8

def XENMEM_access_n2rwx : Nat := 9

def XENMEM_access_default : Nat := 10

/- errno values used by the code (returned negated, as in C). -/

def ESRCH : Int := 3

def EFAULT : Int := 14

def EINVAL : Int := 22

def ERANGE : Int := 34

/-- One p2m entry: machine frame (none models INVALID_MFN), type, and the
stored access permission.  The permission is kept as a raw Nat so that the
defensive bound check of _p2m_get_mem_access against corrupted state is
expressible. -/
structure Entry where
  mfn : Option Nat
  ptype : Nat
  a : Nat
  deriving DecidableEq

/-- One translation table (struct p2m_domain restricted to the fields this
core reads/writes): entries keyed by gfn, the default access, and the
access_required flag. -/
structure P2m where
  entries : Nat → Entry
  default_access : Nat
  access_required : Bool

/-- The memaccess table of _p2m_get_mem_access: maps a p2m_access_t index to
the xenmem_access_t value of the same name. -/
def memaccess_p2x : List Nat :=
  [XENMEM_access_n, XENMEM_access_r, XENMEM_access_w, XENMEM_access_rw,
   XENMEM_access_x, XENMEM_access_rx, XENMEM_access_wx, XENMEM_access_rwx,
   XENMEM_access_rx2rw, XENMEM_access_n2rwx]

/-- Result of _p2m_get_mem_access: the returned rc / *access pair, plus
whether the gfn lock was taken (the default-access path returns before any
locking). -/
structure GetAccessResult where
  res : Except Int Nat
  locked : Bool

/-- Embedding of _p2m_get_mem_access (mem_access.c:29-70).  gfn = none models
INVALID_GFN ("get the default access").  The entry lookup stands for the
locked p2m->get_entry call; `locked` records whether gfn_lock was taken. -/
def _p2m_get_mem_access (p2m : P2m) (gfn : Option Nat) : GetAccessResult :=
  match gfn with
  | none => { res := Except.ok (memaccess_p2x.getD p2m.default_access 0), locked := false }
  | some g =>
    if (p2m.entries g).mfn = none then { res := Except.error (-ESRCH), locked := true }
    else if memaccess_p2x.length ≤ (p2m.entries g).a then
      { res := Except.error (-ERANGE), locked := true }
    else { res := Except.ok (memaccess_p2x.getD ((p2m.entries g).a) 0), locked := true }

/-- Attempted-access flags of a vm_event mem_access record (the MEM_ACCESS_R /
MEM_ACCESS_W / MEM_ACCESS_X bits, modelled as booleans). -/
structure MemFlags where
  r : Bool
  w : Bool
  x : Bool
  deriving DecidableEq

/-- The switch statement of p2m_mem_access_emulate_check (mem_access.c:88-124),
as a pure function of the looked-up access and the attempted-access flags.
The C switch groups XENMEM_access_n, XENMEM_access_n2rwx and the default case
together; here they are the final else branch. -/
def accessViolation (access : Nat) (f : MemFlags) : Bool :=
  if access = XENMEM_access_r then f.w || f.x
  else if access = XENMEM_access_w then f.r || f.x
  else if access = XENMEM_access_x then f.r || f.w
  else if access = XENMEM_access_rx ∨ access = XENMEM_access_rx2rw then f.w
  else if access = XENMEM_access_wx then f.r
  else if access = XENMEM_access_rw then f.x
  else if access = XENMEM_access_rwx then false
  else f.r || f.w || f.x

/-- Embedding of p2m_mem_access_emulate_check (mem_access.c:72-128), after the
p2m view has been selected: `violation` starts true and is refined only when
the access lookup succeeds. -/
def p2m_mem_access_emulate_check (p2m : P2m) (gfn : Nat) (f : MemFlags) : Bool :=
  match (_p2m_get_mem_access p2m (some gfn)).res with
  | Except.ok access => accessViolation access f
  | Except.error _ => true

/-- Fault kind of struct npfec. -/
inductive NpfecKind where
  | unknown
  | with_gla
  | in_gpt
  deriving DecidableEq

/-- The npfec fault descriptor fields read by p2m_mem_access_check. -/
structure Npfec where
  read_access : Bool
  write_access : Bool
  insn_fetch : Bool
  gla_valid : Bool
  kind : NpfecKind
  deriving DecidableEq

def PAGE_SHIFT : Nat := 12

def gaddr_to_gfn (gpa : Nat) : Nat := gpa / 2 ^ PAGE_SHIFT

/-- Embedding of p2m->set_entry for a single 4K entry: replaces the entry at
gfn and succeeds (rc 0), matching the "must succeed" contract asserted in
mem_access.c. -/
def set_entry (p : P2m) (gfn : Nat) (mfn : Option Nat) (t : Nat) (a : Nat) : P2m × Int :=
  ({ p with entries := fun g => if g = gfn then { mfn := mfn, ptype := t, a := a } else p.entries g },
   0)

/-- The vm_event request built by p2m_mem_access_check (mem_access.c:216-246):
gfn, offset within the page, the optional guest linear address, the
fault-kind flags and the r/w/x access flags (bit flags modelled as
booleans). -/
structure VmEventReq where
  gfn : Nat
  offset : Nat
  gla : Option Nat
  fault_with_gla : Bool
  fault_in_gpt : Bool
  r : Bool
  w : Bool
  x : Bool
  deriving DecidableEq

def mkReq (gfn gpa gla : Nat) (n : Npfec) : VmEventReq :=
  { gfn := gfn
    offset := gpa % 2 ^ PAGE_SHIFT
    gla := if n.gla_valid then some gla else none
    fault_with_gla := n.kind == NpfecKind.with_gla
    fault_in_gpt := n.kind == NpfecKind.in_gpt
    r := n.read_access
    w := n.write_access
    x := n.insn_fetch }

/-- Everything p2m_mem_access_check produces: the updated table, the returned
boolean (whether a vCPU pause is required / the fault is handled), the
request stored through req_ptr (none when nothing was stored), whether
domain_crash was invoked, and whether the single-instruction emulation
fallback ran. -/
structure CheckResult where
  p2m : P2m
  handled : Bool
  req : Option VmEventReq
  crashed : Bool
  emulated : Bool

/-- Embedding of p2m_mem_access_check (mem_access.c:130-250), after the p2m
view (host or altp2m) has been selected.  monitorPresent models
vm_event_check_ring(d->vm_event_monitor); reqPtrPresent models req_ptr not
being NULL; igpf_disabled models d->arch.monitor.inguest_pagefault_disabled;
allocOk models xzalloc succeeding. -/
def p2m_mem_access_check (p2m : P2m) (gpa gla : Nat) (n : Npfec)
    (monitorPresent reqPtrPresent igpf_disabled allocOk : Bool) : CheckResult :=
  let gfn := gaddr_to_gfn gpa
  let e := p2m.entries gfn
  if n.write_access && (e.a == p2m_access_rx2rw) then
    { p2m := (set_entry p2m gfn e.mfn e.ptype p2m_access_rw).1
      handled := true, req := none, crashed := false, emulated := false }
  else
    let p2m1 := if e.a == p2m_access_n2rwx then (set_entry p2m gfn e.mfn e.ptype p2m_access_rwx).1
                else p2m
    if !(monitorPresent && reqPtrPresent) then
      if p2m1.access_required then
        { p2m := p2m1, handled := false, req := none, crashed := true, emulated := false }
      else
        let e2 := p2m1.entries gfn
        let p2m2 := if e2.a == p2m_access_n2rwx then p2m1
                    else (set_entry p2m1 gfn e2.mfn e2.ptype p2m_access_rwx).1
        { p2m := p2m2, handled := true, req := none, crashed := false, emulated := false }
    else if monitorPresent && igpf_disabled && (n.kind == NpfecKind.in_gpt) then
      { p2m := p2m1, handled := true, req := none, crashed := false, emulated := true }
    else
      { p2m := p2m1
        handled := !(e.a == p2m_access_n2rwx)
        req := if allocOk then some (mkReq gfn gpa gla n) else none
        crashed := false, emulated := false }

/- Domain-level state for the set-access paths. -/

/-- Capacity of d->arch.altp2m_p2m.  Modelled from the spec: a fixed maximum
of alternate views per domain (MAX_ALTP2M; the constant header is part of the
repository but not under src/). -/
def MAX_ALTP2M : Nat := 10

/-- Modelled from the spec: the EPTP array bound MAX_EPTP used in the
capacity check min(ARRAY_SIZE(d->arch.altp2m_p2m), MAX_EPTP). -/
def MAX_EPTP : Nat := 512

/-- The per-domain state read/written by the set-access operations: the host
p2m, the altp2m EPTP slots (none models mfn_x(INVALID_MFN), i.e. an
unpopulated view) and the alternate-view tables themselves. -/
structure Dom where
  hostp2m : P2m
  altp2m_eptp : Nat → Option Nat
  altp2m : Nat → P2m

def updAlt (d : Dom) (idx : Nat) (p : P2m) : Dom :=
  { d with altp2m := fun j => if j = idx then p else d.altp2m j }

/-- Modelled from the spec: altp2m_get_effective_entry with AP2MGET_prepopulate
(defined in p2m.c, outside src/).  Uses the altp2m entry if a frame is mapped
there; otherwise falls back to the host entry, copying it into the altp2m
("prepopulate"); reports not-present (-ESRCH) when the host has no mapping
either. -/
def altp2m_get_effective_entry (d : Dom) (idx g : Nat) : Dom × Except Int Entry :=
  let ae := (d.altp2m idx).entries g
  if ae.mfn.isSome then (d, Except.ok ae)
  else
    let he := d.hostp2m.entries g
    if he.mfn.isSome then
      ((updAlt d idx ((set_entry (d.altp2m idx) g he.mfn he.ptype he.a).1)), Except.ok he)
    else (d, Except.error (-ESRCH))

/-- Embedding of p2m_set_altp2m_mem_access (mem_access.c:252-271): look up the
effective entry (prepopulating from the host if needed) and write the new
access into the alternate view. -/
def p2m_set_altp2m_mem_access (d : Dom) (idx a g : Nat) : Dom × Int :=
  match altp2m_get_effective_entry d idx g with
  | (d1, Except.error rc) => (d1, rc)
  | (d1, Except.ok e) =>
    let pr := set_entry (d1.altp2m idx) g e.mfn e.ptype a
    (updAlt d1 idx pr.1, pr.2)

/-- Embedding of set_mem_access (mem_access.c:273-297).  useAlt models ap2m
being non-NULL; the -ESRCH result of the altp2m path is treated as a
non-error skip.  The host path looks up the gfn (p2m_get_gfn_type_access)
and rewrites the entry with the new access. -/
def set_mem_access (d : Dom) (useAlt : Bool) (idx a g : Nat) : Dom × Int :=
  if useAlt then
    let pr := p2m_set_altp2m_mem_access d idx a g
    (pr.1, if pr.2 = -ESRCH then 0 else pr.2)
  else
    let e := d.hostp2m.entries g
    let pr := set_entry d.hostp2m g e.mfn e.ptype a
    ({ d with hostp2m := pr.1 }, pr.2)

/-- The xenmem-to-p2m access table of xenmem_access_to_p2m_access
(mem_access.c:303-316). -/
def memaccess_x2p : List Nat :=
  [p2m_access_n, p2m_access_r, p2m_access_w, p2m_access_rw,
   p2m_access_x, p2m_access_rx, p2m_access_wx, p2m_access_rwx,
   p2m_access_rx2rw, p2m_access_n2rwx]

/-- Embedding of xenmem_access_to_p2m_access (mem_access.c:299-332): valid
enumerated values map through the table, the "default" marker resolves to the
table's default access, anything else is rejected (none models returning
false). -/
def xenmem_access_to_p2m_access (p2m : P2m) (xaccess : Nat) : Option Nat :=
  if xaccess < memaccess_x2p.length then some (memaccess_x2p.getD xaccess 0)
  else if xaccess = XENMEM_access_default then some p2m.default_access
  else none

/-- The loop of p2m_set_mem_access (mem_access.c:372-385), structurally
recursive on the number of remaining frames (nr - start).  After each frame,
`nr > ++start` corresponds to the remaining count staying positive; the
preemption oracle stands for hypercall_preempt_check and is keyed by the
current start offset. -/
def setLoop (d : Dom) (useAlt : Bool) (idx a g mask : Nat) (preempt : Nat → Bool)
    (start : Nat) : Nat → Dom × Int
  | 0 => (d, 0)
  | remaining + 1 =>
    if (set_mem_access d useAlt idx a (g + start)).2 ≠ 0 then
      set_mem_access d useAlt idx a (g + start)
    else if remaining ≠ 0 ∧ (start + 1) &&& mask = 0 ∧ preempt (start + 1) then
      ((set_mem_access d useAlt idx a (g + start)).1, ((start + 1 : Nat) : Int))
    else
      setLoop (set_mem_access d useAlt idx a (g + start)).1 useAlt idx a g mask preempt
        (start + 1) remaining

/-- Embedding of p2m_set_mem_access (mem_access.c:338-392).  gfn = none models
INVALID_GFN ("set the default access").  The altp2m-index validation and the
access conversion precede any mutation; the loop is deferred to setLoop with
remaining = nr - start. -/
def p2m_set_mem_access (d : Dom) (gfn : Option Nat) (nr start mask access altp2m_idx : Nat)
    (preempt : Nat → Bool) : Dom × Int :=
  if altp2m_idx ≠ 0 ∧
     (min MAX_ALTP2M MAX_EPTP ≤ altp2m_idx ∨ d.altp2m_eptp altp2m_idx = none) then
    (d, -EINVAL)
  else
    match xenmem_access_to_p2m_access d.hostp2m access with
    | none => (d, -EINVAL)
    | some a =>
      match gfn with
      | none => ({ d with hostp2m := { d.hostp2m with default_access := a } }, 0)
      | some g => setLoop d (altp2m_idx != 0) altp2m_idx a g mask preempt start (nr - start)

/-- The loop of p2m_set_mem_access_multi (mem_access.c:418-448): per item it
copies the gfn and the access value from the caller-supplied lists (none
models a faulting guest copy), converts the access, applies it, and honours
the same preemption contract as setLoop. -/
def multiLoop (d : Dom) (useAlt : Bool) (idx : Nat) (pfn_list access_list : Nat → Option Nat)
    (mask : Nat) (preempt : Nat → Bool) (start : Nat) : Nat → Dom × Int
  | 0 => (d, 0)
  | remaining + 1 =>
    match pfn_list start, access_list start with
    | some g, some access =>
      match xenmem_access_to_p2m_access d.hostp2m access with
      | none => (d, -EINVAL)
      | some a =>
        if (set_mem_access d useAlt idx a g).2 ≠ 0 then set_mem_access d useAlt idx a g
        else if remaining ≠ 0 ∧ (start + 1) &&& mask = 0 ∧ preempt (start + 1) then
          ((set_mem_access d useAlt idx a g).1, ((start + 1 : Nat) : Int))
        else
          multiLoop (set_mem_access d useAlt idx a g).1 useAlt idx pfn_list access_list
            mask preempt (start + 1) remaining
    | _, _ => (d, -EFAULT)

/-- Embedding of p2m_set_mem_access_multi (mem_access.c:394-455): same altp2m
index validation as p2m_set_mem_access, then the list-driven loop. -/
def p2m_set_mem_access_multi (d : Dom) (pfn_list access_list : Nat → Option Nat)
    (nr start mask altp2m_idx : Nat) (preempt : Nat → Bool) : Dom × Int :=
  if altp2m_idx ≠ 0 ∧
     (min MAX_ALTP2M MAX_EPTP ≤ altp2m_idx ∨ d.altp2m_eptp altp2m_idx = none) then
    (d, -EINVAL)
  else
    multiLoop d (altp2m_idx != 0) altp2m_idx pfn_list access_list mask preempt start (nr - start)

/-- Reference fold for the loop proofs: apply set_mem_access to `count`
consecutive frames beginning at offset `start` of the range based at g. -/
def applyFromTo (useAlt : Bool) (idx a g : Nat) : Nat → Nat → Dom → Dom
  | _, 0, d => d
  | start, count + 1, d =>
    applyFromTo useAlt idx a g (start + 1) count (set_mem_access d useAlt idx a (g + start)).1

/- Lock-ordering model (mm-locks.h).  A single execution unit `me` is
modelled; this_cpu(mm_lock_level) becomes the `level` field of the state. -/

/-- Fatal outcomes of the lock primitives: the lock-order BUG of
_check_lock_level, and the "mm lock already held" panic of _mm_lock. -/
inductive Fatal where
  | bugOrder
  | panicHeld
  deriving DecidableEq

def MM_LOCK_ORDER_MAX : Int := 64

def MM_LOCK_ORDER_nestedp2m : Int := 8

def MM_LOCK_ORDER_p2m : Int := 16

def MM_LOCK_ORDER_per_page_sharing : Int := 24

def MM_LOCK_ORDER_altp2mlist : Int := 32

def MM_LOCK_ORDER_altp2m : Int := 40

def MM_LOCK_ORDER_pod : Int := 48

def MM_LOCK_ORDER_page_alloc : Int := 56

def MM_LOCK_ORDER_paging : Int := 64

/-- Embedding of _lock_level (mm-locks.h:50-55): isControl models
d && is_control_domain(d); a privileged caller's levels are shifted by
MM_LOCK_ORDER_MAX into a disjoint band. -/
def _lock_level (isControl : Bool) (l : Int) : Int :=
  l + (if isControl then MM_LOCK_ORDER_MAX else 0)

/-- An mm_lock_t together with the recursion state of its recursive spinlock:
owner (lock.recurse_cpu, none models "no CPU"), recursion count
(lock.recurse_cnt), the diagnostic tag and the saved unlock level. -/
structure MmLockT where
  recurse_cpu : Option Nat
  recurse_cnt : Nat
  locker_function : String
  unlock_level : Int

/-- State of one execution unit: its per-CPU mm_lock_level and the exclusive
locks, indexed by an abstract lock identifier. -/
structure MmState where
  level : Int
  locks : Nat → MmLockT

/-- Embedding of mm_locked_by_me (mm-locks.h:29-32). -/
def mm_locked_by_me (me : Nat) (l : MmLockT) : Bool :=
  l.recurse_cpu == some me

/-- Modelled from the spec: spin_lock_recursive (common/spinlock.c, outside
src/) — re-acquisition by the owner just increments the depth, a fresh
acquisition records the owner and brings the depth from 0 to 1. -/
def spin_lock_recursive (me : Nat) (l : MmLockT) : MmLockT :=
  if l.recurse_cpu == some me then { l with recurse_cnt := l.recurse_cnt + 1 }
  else { l with recurse_cpu := some me, recurse_cnt := l.recurse_cnt + 1 }

/-- Modelled from the spec: spin_unlock_recursive (common/spinlock.c, outside
src/) — decrements the depth and clears the owner only when it reaches 0. -/
def spin_unlock_recursive (l : MmLockT) : MmLockT :=
  if l.recurse_cnt - 1 = 0 then { l with recurse_cnt := 0, recurse_cpu := none }
  else { l with recurse_cnt := l.recurse_cnt - 1 }

/-- Embedding of _mm_lock (mm-locks.h:77-91) combined with _check_lock_level
(mm-locks.h:61-70): the level check is skipped only for a recursive
re-acquisition by the owner and BUGs when the biased level is below the
tracked level; taking the lock saves the unlock level on first acquisition,
panics when an already-held lock is taken without isRec, and finally raises
the tracked level. -/
def _mm_lock (me : Nat) (isControl : Bool) (st : MmState) (i : Nat) (fn : String)
    (level : Int) (isRec : Bool) : Except Fatal MmState :=
  if (!(mm_locked_by_me me (st.locks i) && isRec)) &&
     decide (_lock_level isControl level < st.level) then
    Except.error Fatal.bugOrder
  else if (spin_lock_recursive me (st.locks i)).recurse_cnt = 1 then
    Except.ok { level := _lock_level isControl level
                locks := fun t => if t = i then
                    { spin_lock_recursive me (st.locks i) with
                        locker_function := fn, unlock_level := st.level }
                  else st.locks t }
  else if !isRec then
    Except.error Fatal.panicHeld
  else
    Except.ok { level := _lock_level isControl level
                locks := fun t => if t = i then spin_lock_recursive me (st.locks i)
                  else st.locks t }

/-- Embedding of mm_unlock (mm-locks.h:198-206): on the final release (depth
1) the tag is cleared and the tracked level restored before the physical
release. -/
def mm_unlock (st : MmState) (i : Nat) : MmState :=
  if (st.locks i).recurse_cnt = 1 then
    { level := (st.locks i).unlock_level
      locks := fun t => if t = i then
          spin_unlock_recursive { st.locks i with locker_function := "nobody" }
        else st.locks t }
  else
    { st with locks := fun t => if t = i then spin_unlock_recursive (st.locks i)
        else st.locks t }

/-- One lock acquisition of a sequence: lock identifier, requested order
level, the recursion flag, and whether the lock's domain is a control
domain. -/
structure Acq where
  i : Nat
  level : Int
  isRec : Bool
  isControl : Bool

/-- Run a sequence of _mm_lock acquisitions, stopping at the first fatal
outcome. -/
def runAcqs (me : Nat) (st : MmState) : List Acq → Except Fatal MmState
  | [] => Except.ok st
  | a :: rest =>
    match _mm_lock me a.isControl st a.i "caller" a.level a.isRec with
    | Except.error e => Except.error e
    | Except.ok st1 => runAcqs me st1 rest

/-- A sequence respects the tier order when every acquisition that performs
the level check (i.e. every acquisition that is not a recursive
re-acquisition by the owner) requests a biased level at or above the tracked
current level. -/
def tierOk (me : Nat) (st : MmState) : List Acq → Bool
  | [] => true
  | a :: rest =>
    ((mm_locked_by_me me (st.locks a.i) && a.isRec) ||
       decide (st.level ≤ _lock_level a.isControl a.level)) &&
    (match _mm_lock me a.isControl st a.i "caller" a.level a.isRec with
     | Except.error _ => true
     | Except.ok st1 => tierOk me st1 rest)

/-- A sequence never takes an already-held lock without declaring recursion:
every non-recursive acquisition is of a lock whose recursion depth is 0. -/
def cntOk (me : Nat) (st : MmState) : List Acq → Bool
  | [] => true
  | a :: rest =>
    (a.isRec || decide ((st.locks a.i).recurse_cnt = 0)) &&
    (match _mm_lock me a.isControl st a.i "caller" a.level a.isRec with
     | Except.error _ => true
     | Except.ok st1 => cntOk me st1 rest)

/-- Iterate a recursive _mm_lock acquisition of lock i. -/
def iterLockRec (me : Nat) (isControl : Bool) (i : Nat) (level : Int) :
    Nat → MmState → Except Fatal MmState
  | 0, st => Except.ok st
  | k + 1, st =>
    match _mm_lock me isControl st i "caller" level true with
    | Except.error e => Except.error e
    | Except.ok st1 => iterLockRec me isControl i level k st1

/-- Iterate mm_unlock of lock i. -/
def iterUnlock (i : Nat) : Nat → MmState → MmState
  | 0, st => st
  | k + 1, st => iterUnlock i k (mm_unlock st i)

/- Reader/writer lock model (mm_rwlock_t). -/

/-- An mm_rwlock_t: writer owner, diagnostic tag, saved unlock level and
writer recursion depth. -/
structure MmRwLockT where
  locker : Option Nat
  locker_function : String
  unlock_level : Int
  recurse_count : Nat

/-- State of one execution unit acting on one rwlock: the per-CPU
mm_lock_level and the lock. -/
structure RwSt where
  level : Int
  lock : MmRwLockT

/-- Embedding of mm_write_locked_by_me (mm-locks.h:123-126). -/
def mm_write_locked_by_me (me : Nat) (l : MmRwLockT) : Bool :=
  l.locker == some me

/-- Embedding of _mm_write_lock (mm-locks.h:128-143): a fresh write
acquisition checks the order level, takes the write side, records owner/tag,
saves the unlock level and raises the tracked level; a recursive one only
increments the depth. -/
def _mm_write_lock (me : Nat) (isControl : Bool) (st : RwSt) (fn : String)
    (level : Int) : Except Fatal RwSt :=
  if !(mm_write_locked_by_me me st.lock) then
    if decide (_lock_level isControl level < st.level) then Except.error Fatal.bugOrder
    else
      Except.ok
        { level := _lock_level isControl level
          lock := { locker := some me, locker_function := fn, unlock_level := st.level
                    recurse_count := st.lock.recurse_count + 1 } }
  else
    Except.ok { st with lock := { st.lock with recurse_count := st.lock.recurse_count + 1 } }

/-- Embedding of mm_write_unlock (mm-locks.h:145-153): inner releases only
decrement the depth; the final release clears owner/tag, restores the
tracked level and physically releases. -/
def mm_write_unlock (st : RwSt) : RwSt :=
  if st.lock.recurse_count - 1 ≠ 0 then
    { st with lock := { st.lock with recurse_count := st.lock.recurse_count - 1 } }
  else
    { level := st.lock.unlock_level
      lock := { locker := none, locker_function := "nobody"
                unlock_level := st.lock.unlock_level, recurse_count := 0 } }

/-- Iterate a write-lock acquisition at a fixed level. -/
def iterWLock (me : Nat) (isControl : Bool) (level : Int) :
    Nat → RwSt → Except Fatal RwSt
  | 0, st => Except.ok st
  | k + 1, st =>
    match _mm_write_lock me isControl st "caller" level with
    | Except.error e => Except.error e
    | Except.ok st1 => iterWLock me isControl level k st1

/-- Iterate mm_write_unlock. -/
def iterWUnlock : Nat → RwSt → RwSt
  | 0, st => st
  | k + 1, st => iterWUnlock k (mm_write_unlock st)

/- The p2m lock wrapper with deferred flushing (mm-locks.h:314-329). -/

/-- State for the p2m_lock/p2m_unlock wrapper: the per-CPU level, the table's
write lock, the defer_flush counter, a count of translation-cache flushes
performed (to observe when flushing happens), and whether the table is an
alternate view (which selects the order level). -/
structure P2mLk where
  level : Int
  lock : MmRwLockT
  defer_flush : Nat
  flushes : Nat
  isAlt : Bool

/-- Embedding of p2m_lock (mm-locks.h:314-321): write-lock at the altp2m or
p2m order level according to the view, then increment defer_flush. -/
def p2m_lock (me : Nat) (isControl : Bool) (s : P2mLk) : Except Fatal P2mLk :=
  match _mm_write_lock me isControl { level := s.level, lock := s.lock } "p2m_lock"
      (if s.isAlt then MM_LOCK_ORDER_altp2m else MM_LOCK_ORDER_p2m) with
  | Except.error e => Except.error e
  | Except.ok r =>
    Except.ok { s with level := r.level, lock := r.lock, defer_flush := s.defer_flush + 1 }

/-- Modelled from the spec: p2m_unlock_and_tlb_flush (p2m.c, outside src/)
performs the translation-cache flush and then releases the write lock. -/
def p2m_unlock_and_tlb_flush (s : P2mLk) : P2mLk :=
  { s with flushes := s.flushes + 1
           level := (mm_write_unlock { level := s.level, lock := s.lock }).level
           lock := (mm_write_unlock { level := s.level, lock := s.lock }).lock }

/-- Embedding of p2m_unlock (mm-locks.h:323-329): decrement defer_flush; only
when it reaches zero flush and release, otherwise just release the recursive
write lock. -/
def p2m_unlock (s : P2mLk) : P2mLk :=
  if s.defer_flush - 1 = 0 then
    p2m_unlock_and_tlb_flush { s with defer_flush := s.defer_flush - 1 }
  else
    { s with defer_flush := s.defer_flush - 1
             level := (mm_write_unlock { level := s.level, lock := s.lock }).level
             lock := (mm_write_unlock { level := s.level, lock := s.lock }).lock }

/-- Iterate p2m_lock. -/
def iterP2mLock (me : Nat) (isControl : Bool) : Nat → P2mLk → Except Fatal P2mLk
  | 0, s => Except.ok s
  | k + 1, s =>
    match p2m_lock me isControl s with
    | Except.error e => Except.error e
    | Except.ok s1 => iterP2mLock me isControl k s1

/-- Iterate p2m_unlock. -/
def iterP2mUnlock : Nat → P2mLk → P2mLk
  | 0, s => s
  | k + 1, s => iterP2mUnlock k (p2m_unlock s)

/-- Reference truth table for claim C4, written from the spec's words (the
one spec-side definition, to be compared with the source-side
accessViolation): none/n2rwx → any of R/W/X; read → W or X; write → R or X;
execute → R or W; read-execute/rx2rw → W; write-execute → R; read-write → X;
read-write-execute → never; unrecognized → fail safe (always a
violation). -/
def specViolation (perm : Nat) (f : MemFlags) : Bool :=
  if perm = XENMEM_access_n ∨ perm = XENMEM_access_n2rwx then f.r || f.w || f.x
  else if perm = XENMEM_access_r then f.w || f.x
  else if perm = XENMEM_access_w then f.r || f.x
  else if perm = XENMEM_access_x then f.r || f.w
  else if perm = XENMEM_access_rx ∨ perm = XENMEM_access_rx2rw then f.w
  else if perm = XENMEM_access_wx then f.r
  else if perm = XENMEM_access_rw then f.x
  else if perm = XENMEM_access_rwx then false
  else true

/- Concrete inputs used by the witness theorems. -/

/-- A table with a not-present frame at gfn 0, a corrupted stored permission
at gfn 1, and a valid rx entry elsewhere. -/
def p2mW : P2m :=
  { entries := fun g =>
      if g = 0 then { mfn := none, ptype := 0, a := 0 }
      else if g = 1 then { mfn := some 7, ptype := 0, a := 12 }
      else { mfn := some 7, ptype := 0, a := 5 }
    default_access := 3
    access_required := false }

/-- A table whose every entry carries the rx2rw sentinel. -/
def p2mW2 : P2m :=
  { entries := fun _ => { mfn := some 3, ptype := 0, a := p2m_access_rx2rw }
    default_access := 0
    access_required := false }

/-- A table whose every entry carries the n2rwx sentinel. -/
def p2mW3 : P2m :=
  { entries := fun _ => { mfn := some 4, ptype := 0, a := p2m_access_n2rwx }
    default_access := 0
    access_required := false }

/-- A plain write fault. -/
def nW : Npfec :=
  { read_access := false, write_access := true, insn_fetch := false
    gla_valid := false, kind := NpfecKind.unknown }

/-- A domain with no populated alternate views. -/
def dW : Dom :=
  { hostp2m := p2mW2, altp2m_eptp := fun _ => none, altp2m := fun _ => p2mW2 }

/-- A domain whose alternate-view slots are all populated. -/
def dW2 : Dom :=
  { hostp2m := p2mW2, altp2m_eptp := fun _ => some 99, altp2m := fun _ => p2mW3 }

/-- A preemption oracle that fires exactly at offset 1. -/
def prW : Nat → Bool := fun s => s == 1

/-- An execution unit holding nothing, at level 0. -/
def st0 : MmState :=
  { level := 0
    locks := fun _ =>
      { recurse_cpu := none, recurse_cnt := 0, locker_function := "nobody", unlock_level := 0 } }

/-- The same execution unit with its tracked level already raised to the
paging tier. -/
def stHigh : MmState := { st0 with level := MM_LOCK_ORDER_paging }

/-- A tier-respecting acquisition sequence: the p2m tier then the altp2m
tier. -/
def seq0 : List Acq :=
  [{ i := 0, level := MM_LOCK_ORDER_p2m, isRec := false, isControl := false },
   { i := 1, level := MM_LOCK_ORDER_altp2m, isRec := false, isControl := false }]

/-- Closed form of the state after j ≥ 1 acquisitions of exclusive lock i
taken from state st by unit me (used by the recursion-count proofs). -/
def lockedSt (me : Nat) (c : Bool) (i : Nat) (level : Int) (st : MmState) (j : Nat) : MmState :=
  { level := _lock_level c level
    locks := fun t => if t = i then
        { recurse_cpu := some me, recurse_cnt := j, locker_function := "caller"
          unlock_level := st.level }
      else st.locks t }

/-- Closed form of the state after j ≥ 1 write acquisitions of an rwlock
taken from state st by unit me, tagged fn. -/
def wLockedSt (me : Nat) (c : Bool) (level : Int) (st : RwSt) (fn : String) (j : Nat) : RwSt :=
  { level := _lock_level c level
    lock := { locker := some me, locker_function := fn, unlock_level := st.level
              recurse_count := j } }

/-- Closed form of the p2m-lock state after j ≥ 1 nested p2m_lock calls from
state s by unit me. -/
def p2mLockedSt (me : Nat) (c : Bool) (s : P2mLk) (j : Nat) : P2mLk :=
  { level := _lock_level c (if s.isAlt then MM_LOCK_ORDER_altp2m else MM_LOCK_ORDER_p2m)
    lock := { locker := some me, locker_function := "p2m_lock", unlock_level := s.level
              recurse_count := j }
    defer_flush := j
    flushes := s.flushes
    isAlt := s.isAlt }

/-- An initially free rwlock at level 0. -/
def rw0 : RwSt :=
  { level := 0
    lock := { locker := none, locker_function := "nobody", unlock_level := 0
              recurse_count := 0 } }

/-- An initially free host-view p2m lock state. -/
def pl0 : P2mLk :=
  { level := 0
    lock := { locker := none, locker_function := "nobody", unlock_level := 0
              recurse_count := 0 }
    defer_flush := 0
    flushes := 0
    isAlt := false }

/- Theorems. -/

theorem memaccess_p2x_getD_id :
    ∀ i : Nat, i < memaccess_p2x.length → memaccess_p2x.getD i 0 = i := by
  decide

theorem memaccess_p2x_getD_lt :
    ∀ i : Nat, i < memaccess_p2x.length → memaccess_p2x.getD i 0 < 10 := by
  decide

/-- C7: _p2m_get_mem_access returns the table's default permission without
locking when given the use-default marker; otherwise it fails with -ESRCH
when no valid machine frame is mapped, fails with -ERANGE when the frame is
mapped but its stored permission index is outside the known permission set,
and on success returns the stored permission. -/
theorem C7_get_access_paths :
    (∀ p2m : P2m, p2m.default_access < memaccess_p2x.length →
       (_p2m_get_mem_access p2m none).res = Except.ok p2m.default_access ∧
       (_p2m_get_mem_access p2m none).locked = false) ∧
    (∀ (p2m : P2m) (g : Nat), (p2m.entries g).mfn = none →
       (_p2m_get_mem_access p2m (some g)).res = Except.error (-ESRCH)) ∧
    (∀ (p2m : P2m) (g : Nat), (p2m.entries g).mfn ≠ none →
       memaccess_p2x.length ≤ (p2m.entries g).a →
       (_p2m_get_mem_access p2m (some g)).res = Except.error (-ERANGE)) ∧
    (∀ (p2m : P2m) (g : Nat), (p2m.entries g).mfn ≠ none →
       (p2m.entries g).a < memaccess_p2x.length →
       (_p2m_get_mem_access p2m (some g)).res = Except.ok ((p2m.entries g).a)) := by
  refine ⟨fun p2m h => ?_, fun p2m g h => ?_, fun p2m g h h2 => ?_, fun p2m g h h2 => ?_⟩
  · unfold _p2m_get_mem_access
    exact ⟨by rw [memaccess_p2x_getD_id _ h], rfl⟩
  · unfold _p2m_get_mem_access
    simp [h]
  · unfold _p2m_get_mem_access
    simp [h, h2]
  · unfold _p2m_get_mem_access
    dsimp only
    rw [if_neg h, if_neg (Nat.not_le.mpr h2)]
    exact congrArg Except.ok (memaccess_p2x_getD_id _ h2)

/-- Witness for C7 at a concrete table: the default path, the not-present
path, the out-of-range path and the success path. -/
theorem C7_witness :
    ((_p2m_get_mem_access p2mW none).res = Except.ok p2mW.default_access ∧
     (_p2m_get_mem_access p2mW none).locked = false) ∧
    (_p2m_get_mem_access p2mW (some 0)).res = Except.error (-ESRCH) ∧
    (_p2m_get_mem_access p2mW (some 1)).res = Except.error (-ERANGE) ∧
    (_p2m_get_mem_access p2mW (some 2)).res = Except.ok ((p2mW.entries 2).a) :=
  ⟨C7_get_access_paths.1 p2mW (by decide),
   C7_get_access_paths.2.1 p2mW 0 (by decide),
   C7_get_access_paths.2.2.1 p2mW 1 (by decide) (by decide),
   C7_get_access_paths.2.2.2 p2mW 2 (by decide) (by decide)⟩

theorem get_access_ok_lt (p2m : P2m) (g a : Nat) :
    (_p2m_get_mem_access p2m (some g)).res = Except.ok a → a < 10 := by
  unfold _p2m_get_mem_access
  dsimp only
  by_cases h1 : (p2m.entries g).mfn = none
  · simp [h1]
  · by_cases h2 : memaccess_p2x.length ≤ (p2m.entries g).a
    · rw [if_neg h1, if_pos h2]
      intro h
      exact absurd h (by simp)
    · rw [if_neg h1, if_neg h2]
      intro h
      rw [← Except.ok.inj h]
      exact memaccess_p2x_getD_lt _ (Nat.not_le.mp h2)

/-- C4: on a successful access lookup, p2m_mem_access_emulate_check returns
exactly the violation verdict given by the spec's truth table. -/
theorem C4_emulate_check_table :
    ∀ (p2m : P2m) (g : Nat) (f : MemFlags) (a : Nat),
    (_p2m_get_mem_access p2m (some g)).res = Except.ok a →
    p2m_mem_access_emulate_check p2m g f = specViolation a f := by
  intro p2m g f a h
  have ha : a < 10 := get_access_ok_lt p2m g a h
  unfold p2m_mem_access_emulate_check
  rw [h]
  rcases f with ⟨r, w, x⟩
  interval_cases a <;> cases r <;> cases w <;> cases x <;> decide

/-- Witness for C4: a concrete table whose entry stores read-execute, probed
with a write attempt. -/
theorem C4_witness :
    (_p2m_get_mem_access p2mW (some 2)).res = Except.ok 5 ∧
    p2m_mem_access_emulate_check p2mW 2 { r := false, w := true, x := false } =
      specViolation 5 { r := false, w := true, x := false } :=
  ⟨rfl, C4_emulate_check_table p2mW 2 _ 5 rfl⟩

/-- C1: a write fault on an rx2rw entry is handled silently: the entry's
permission becomes read-write, the function returns true, and nothing is
stored through req_ptr. -/
theorem C1_rx2rw_silent_upgrade :
    ∀ (p2m : P2m) (gpa gla : Nat) (n : Npfec) (mon reqp igpf alloc : Bool),
    n.write_access = true →
    (p2m.entries (gaddr_to_gfn gpa)).a = p2m_access_rx2rw →
    (p2m_mem_access_check p2m gpa gla n mon reqp igpf alloc).handled = true ∧
    (p2m_mem_access_check p2m gpa gla n mon reqp igpf alloc).req = none ∧
    ((p2m_mem_access_check p2m gpa gla n mon reqp igpf alloc).p2m.entries
        (gaddr_to_gfn gpa)).a = p2m_access_rw := by
  intro p2m gpa gla n mon reqp igpf alloc hw ha
  unfold p2m_mem_access_check
  simp [hw, ha, set_entry]

/-- Witness for C1: a concrete write fault on an rx2rw table. -/
theorem C1_witness :
    nW.write_access = true ∧
    (p2mW2.entries (gaddr_to_gfn 4096)).a = p2m_access_rx2rw ∧
    ((p2m_mem_access_check p2mW2 4096 0 nW false false false false).handled = true ∧
     (p2m_mem_access_check p2mW2 4096 0 nW false false false false).req = none ∧
     ((p2m_mem_access_check p2mW2 4096 0 nW false false false false).p2m.entries
         (gaddr_to_gfn 4096)).a = p2m_access_rw) :=
  ⟨rfl, rfl, C1_rx2rw_silent_upgrade p2mW2 4096 0 nW false false false false rfl rfl⟩

/-- C2: with a monitor attached and a request pointer supplied, on the
request-emitting path (the in-guest-page-table emulation shortcut not
taken): an n2rwx entry is upgraded to rwx, a ViolationRequest is still
constructed (when the allocation succeeds), and the returned pause-required
flag is false; moreover on that path the flag is false exactly when the
entry was n2rwx. -/
theorem C2_n2rwx_upgrade_notify :
    ∀ (p2m : P2m) (gpa gla : Nat) (n : Npfec) (igpf alloc : Bool),
    (igpf && (n.kind == NpfecKind.in_gpt)) = false →
    (((p2m.entries (gaddr_to_gfn gpa)).a = p2m_access_n2rwx →
       ((p2m_mem_access_check p2m gpa gla n true true igpf alloc).p2m.entries
           (gaddr_to_gfn gpa)).a = p2m_access_rwx ∧
       (alloc = true →
         (p2m_mem_access_check p2m gpa gla n true true igpf alloc).req =
           some (mkReq (gaddr_to_gfn gpa) gpa gla n)) ∧
       (p2m_mem_access_check p2m gpa gla n true true igpf alloc).handled = false) ∧
     (¬(n.write_access = true ∧ (p2m.entries (gaddr_to_gfn gpa)).a = p2m_access_rx2rw) →
       ((p2m_mem_access_check p2m gpa gla n true true igpf alloc).handled = false ↔
        (p2m.entries (gaddr_to_gfn gpa)).a = p2m_access_n2rwx))) := by
  intro p2m gpa gla n igpf alloc hemul
  constructor
  · intro ha
    unfold p2m_mem_access_check
    simp [ha, hemul, p2m_access_n2rwx, p2m_access_rx2rw, p2m_access_rwx, set_entry]
  · intro hn
    have hcond : (n.write_access &&
        ((p2m.entries (gaddr_to_gfn gpa)).a == p2m_access_rx2rw)) = false := by
      cases hw : n.write_access
      · simp
      · have : (p2m.entries (gaddr_to_gfn gpa)).a ≠ p2m_access_rx2rw := fun h => hn ⟨hw, h⟩
        simp [this]
    unfold p2m_mem_access_check
    simp [hcond, hemul]

/-- Witness for C2: a concrete fault on an n2rwx table with a monitor
attached. -/
theorem C2_witness :
    (false && (nW.kind == NpfecKind.in_gpt)) = false ∧
    (((p2m_mem_access_check p2mW3 4096 0 nW true true false true).p2m.entries
        (gaddr_to_gfn 4096)).a = p2m_access_rwx ∧
     (true = true →
       (p2m_mem_access_check p2mW3 4096 0 nW true true false true).req =
         some (mkReq (gaddr_to_gfn 4096) 4096 0 nW)) ∧
     (p2m_mem_access_check p2mW3 4096 0 nW true true false true).handled = false) :=
  ⟨rfl, ((C2_n2rwx_upgrade_notify p2mW3 4096 0 nW false true rfl).1 rfl)⟩

/-- C9: a nonzero alternate-view index that is at or beyond capacity or names
an unpopulated slot makes both p2m_set_mem_access and
p2m_set_mem_access_multi return -EINVAL with the domain state unchanged. -/
theorem C9_invalid_altp2m_idx :
    ∀ (d : Dom) (gfn : Option Nat) (nr start mask access altp2m_idx : Nat)
      (preempt : Nat → Bool) (pfn_list access_list : Nat → Option Nat),
    altp2m_idx ≠ 0 →
    (min MAX_ALTP2M MAX_EPTP ≤ altp2m_idx ∨ d.altp2m_eptp altp2m_idx = none) →
    p2m_set_mem_access d gfn nr start mask access altp2m_idx preempt = (d, -EINVAL) ∧
    p2m_set_mem_access_multi d pfn_list access_list nr start mask altp2m_idx preempt =
      (d, -EINVAL) := by
  intro d gfn nr start mask access idx preempt pl al h1 h2
  constructor
  · unfold p2m_set_mem_access
    rw [if_pos ⟨h1, h2⟩]
  · unfold p2m_set_mem_access_multi
    rw [if_pos ⟨h1, h2⟩]

/-- Witness for C9: index 3 of a domain with no populated alternate views. -/
theorem C9_witness :
    p2m_set_mem_access dW none 1 0 0 0 3 (fun _ => false) = (dW, -EINVAL) ∧
    p2m_set_mem_access_multi dW (fun _ => none) (fun _ => none) 1 0 0 3 (fun _ => false) =
      (dW, -EINVAL) :=
  C9_invalid_altp2m_idx dW none 1 0 0 0 3 (fun _ => false) (fun _ => none) (fun _ => none)
    (by decide) (Or.inr rfl)

/-- C10: with the use-default marker and a validated nonzero alternate-view
index, p2m_set_mem_access sets the host view's default access and returns 0;
the alternate views (hence the named view's default access) are untouched. -/
theorem C10_default_set_targets_host :
    ∀ (d : Dom) (nr start mask access altp2m_idx : Nat) (preempt : Nat → Bool) (a : Nat),
    altp2m_idx ≠ 0 →
    altp2m_idx < min MAX_ALTP2M MAX_EPTP →
    (d.altp2m_eptp altp2m_idx).isSome →
    xenmem_access_to_p2m_access d.hostp2m access = some a →
    p2m_set_mem_access d none nr start mask access altp2m_idx preempt =
      ({ d with hostp2m := { d.hostp2m with default_access := a } }, 0) ∧
    (p2m_set_mem_access d none nr start mask access altp2m_idx preempt).1.altp2m =
      d.altp2m := by
  intro d nr start mask access idx preempt a h1 h2 h3 h4
  have hne : ¬(idx ≠ 0 ∧ (min MAX_ALTP2M MAX_EPTP ≤ idx ∨ d.altp2m_eptp idx = none)) := by
    rintro ⟨-, hc | hc⟩
    · exact absurd hc (Nat.not_le.mpr h2)
    · rw [hc] at h3
      exact absurd h3 (by simp)
  have hmain : p2m_set_mem_access d none nr start mask access idx preempt =
      ({ d with hostp2m := { d.hostp2m with default_access := a } }, 0) := by
    unfold p2m_set_mem_access
    rw [if_neg hne, h4]
  exact ⟨hmain, by rw [hmain]⟩

/-- Witness for C10: default-set through alternate-view index 1 of a fully
populated domain. -/
theorem C10_witness :
    p2m_set_mem_access dW2 none 1 0 0 2 1 (fun _ => false) =
      ({ dW2 with hostp2m := { dW2.hostp2m with default_access := 2 } }, 0) ∧
    (p2m_set_mem_access dW2 none 1 0 0 2 1 (fun _ => false)).1.altp2m = dW2.altp2m :=
  C10_default_set_targets_host dW2 1 0 0 2 1 (fun _ => false) 2
    (by decide) (by decide) rfl rfl

theorem set_mem_access_rc (d : Dom) (u : Bool) (idx a g : Nat) :
    (set_mem_access d u idx a g).2 = 0 := by
  unfold set_mem_access p2m_set_altp2m_mem_access altp2m_get_effective_entry
  cases u
  · simp [set_entry]
  · by_cases h1 : ((d.altp2m idx).entries g).mfn.isSome
    · simp [h1, set_entry]
    · by_cases h2 : (d.hostp2m.entries g).mfn.isSome
      · simp [h1, h2, set_entry]
      · simp [h1, h2]

theorem set_mem_access_pres (d : Dom) (u : Bool) (idx a g : Nat) :
    (set_mem_access d u idx a g).1.altp2m_eptp = d.altp2m_eptp ∧
    (set_mem_access d u idx a g).1.hostp2m.default_access = d.hostp2m.default_access := by
  unfold set_mem_access p2m_set_altp2m_mem_access altp2m_get_effective_entry updAlt
  cases u
  · simp [set_entry]
  · by_cases h1 : ((d.altp2m idx).entries g).mfn.isSome
    · simp [h1, set_entry]
    · by_cases h2 : (d.hostp2m.entries g).mfn.isSome
      · simp [h1, h2, set_entry]
      · simp [h1, h2]

theorem applyFromTo_pres (u : Bool) (idx a g : Nat) :
    ∀ (count start : Nat) (d : Dom),
    (applyFromTo u idx a g start count d).altp2m_eptp = d.altp2m_eptp ∧
    (applyFromTo u idx a g start count d).hostp2m.default_access =
      d.hostp2m.default_access := by
  intro count
  induction count with
  | zero => intro start d; exact ⟨rfl, rfl⟩
  | succ k ih =>
    intro start d
    have h1 := set_mem_access_pres d u idx a (g + start)
    have h2 := ih (start + 1) (set_mem_access d u idx a (g + start)).1
    unfold applyFromTo
    exact ⟨h2.1.trans h1.1, h2.2.trans h1.2⟩

theorem xenmem_conv_default (p1 p2 : P2m) (x : Nat)
    (h : p1.default_access = p2.default_access) :
    xenmem_access_to_p2m_access p1 x = xenmem_access_to_p2m_access p2 x := by
  unfold xenmem_access_to_p2m_access
  rw [h]

theorem setLoop_no_preempt (u : Bool) (idx a g mask : Nat) :
    ∀ (remaining start : Nat) (d : Dom),
    setLoop d u idx a g mask (fun _ => false) start remaining =
      (applyFromTo u idx a g start remaining d, 0) := by
  intro remaining
  induction remaining with
  | zero => intro start d; rfl
  | succ r ih =>
    intro start d
    unfold setLoop applyFromTo
    rw [if_neg (by simp [set_mem_access_rc]), if_neg (by simp)]
    exact ih (start + 1) (set_mem_access d u idx a (g + start)).1

theorem applyFromTo_split (u : Bool) (idx a g : Nat) :
    ∀ (r1 r2 start : Nat) (d : Dom),
    applyFromTo u idx a g start (r1 + r2) d =
      applyFromTo u idx a g (start + r1) r2 (applyFromTo u idx a g start r1 d) := by
  intro r1
  induction r1 with
  | zero => intro r2 start d; simp [applyFromTo]
  | succ k ih =>
    intro r2 start d
    have hn : k + 1 + r2 = (k + r2) + 1 := by omega
    rw [hn]
    have hstep : ∀ (m : Nat) (dd : Dom),
        applyFromTo u idx a g start (m + 1) dd =
          applyFromTo u idx a g (start + 1) m (set_mem_access dd u idx a (g + start)).1 :=
      fun m dd => rfl
    rw [hstep (k + r2) d, hstep k d, ih r2 (start + 1) (set_mem_access d u idx a (g + start)).1]
    have hs : start + 1 + k = start + (k + 1) := by omega
    rw [hs]

theorem setLoop_preempted (u : Bool) (idx a g mask : Nat) (preempt : Nat → Bool) :
    ∀ (remaining start : Nat) (d d1 : Dom) (rc : Int),
    setLoop d u idx a g mask preempt start remaining = (d1, rc) →
    0 < rc →
    ∃ s : Nat, rc = (s : Int) ∧ start < s ∧ s < start + remaining ∧
      d1 = applyFromTo u idx a g start (s - start) d := by
  intro remaining
  induction remaining with
  | zero =>
    intro start d d1 rc h hrc
    unfold setLoop at h
    rw [Prod.mk.injEq] at h
    omega
  | succ r ih =>
    intro start d d1 rc h hrc
    unfold setLoop at h
    rw [if_neg (by simp [set_mem_access_rc])] at h
    split at h
    · rename_i hc
      rw [Prod.mk.injEq] at h
      refine ⟨start + 1, h.2.symm, by omega, by omega, ?_⟩
      rw [← h.1]
      have : start + 1 - start = 1 := by omega
      rw [this]
      unfold applyFromTo applyFromTo
      rfl
    · obtain ⟨s, hs1, hs2, hs3, hs4⟩ :=
        ih (start + 1) (set_mem_access d u idx a (g + start)).1 d1 rc h hrc
      refine ⟨s, hs1, by omega, by omega, ?_⟩
      have hsplit := applyFromTo_split u idx a g 1 (s - start - 1) start d
      have h1 : (1 : Nat) + (s - start - 1) = s - start := by omega
      have h2 : s - (start + 1) = s - start - 1 := by omega
      rw [h1] at hsplit
      rw [hs4, h2, hsplit]
      rfl

/-- C5: a preempted bulk p2m_set_mem_access over a range returns exactly the
count of frames processed so far as a positive result, and re-invoking with
that count as the start offset (without further preemption) completes the
range, producing the same final state as a single uninterrupted call, which
returns 0. -/
theorem C5_preemption_roundtrip :
    ∀ (d : Dom) (g nr mask access altp2m_idx : Nat) (preempt : Nat → Bool) (a : Nat)
      (d1 : Dom) (rc : Int),
    (altp2m_idx = 0 ∨
      (altp2m_idx < min MAX_ALTP2M MAX_EPTP ∧ d.altp2m_eptp altp2m_idx ≠ none)) →
    xenmem_access_to_p2m_access d.hostp2m access = some a →
    p2m_set_mem_access d (some g) nr 0 mask access altp2m_idx preempt = (d1, rc) →
    0 < rc →
    ∃ s : Nat, rc = (s : Int) ∧ 0 < s ∧ s < nr ∧
      d1 = applyFromTo (altp2m_idx != 0) altp2m_idx a g 0 s d ∧
      p2m_set_mem_access d1 (some g) nr s mask access altp2m_idx (fun _ => false) =
        ((p2m_set_mem_access d (some g) nr 0 mask access altp2m_idx (fun _ => false)).1,
          0) ∧
      (p2m_set_mem_access d (some g) nr 0 mask access altp2m_idx (fun _ => false)).2 =
        0 := by
  intro d g nr mask access idx preempt a d1 rc hvalid hconv h hrc
  have hne : ∀ dx : Dom, dx.altp2m_eptp = d.altp2m_eptp →
      ¬(idx ≠ 0 ∧ (min MAX_ALTP2M MAX_EPTP ≤ idx ∨ dx.altp2m_eptp idx = none)) := by
    intro dx he
    rintro ⟨hnz, hc | hc⟩
    · rcases hvalid with h0 | ⟨hlt, -⟩
      · exact hnz h0
      · omega
    · rcases hvalid with h0 | ⟨-, hnn⟩
      · exact hnz h0
      · rw [he] at hc
        exact hnn hc
  have hrun : ∀ (dx : Dom) (st0 : Nat) (pe : Nat → Bool),
      dx.altp2m_eptp = d.altp2m_eptp →
      dx.hostp2m.default_access = d.hostp2m.default_access →
      p2m_set_mem_access dx (some g) nr st0 mask access idx pe =
        setLoop dx (idx != 0) idx a g mask pe st0 (nr - st0) := by
    intro dx st0 pe he hd
    unfold p2m_set_mem_access
    rw [if_neg (hne dx he), xenmem_conv_default dx.hostp2m d.hostp2m access hd, hconv]
  rw [hrun d 0 preempt rfl rfl, Nat.sub_zero] at h
  obtain ⟨s, hs1, hs2, hs3, hs4⟩ :=
    setLoop_preempted (idx != 0) idx a g mask preempt nr 0 d d1 rc h hrc
  rw [Nat.zero_add] at hs3
  rw [Nat.sub_zero] at hs4
  have hpres := applyFromTo_pres (idx != 0) idx a g s 0 d
  rw [← hs4] at hpres
  refine ⟨s, hs1, hs2, hs3, hs4, ?_, ?_⟩
  · rw [hrun d1 s (fun _ => false) hpres.1 hpres.2, hrun d 0 (fun _ => false) rfl rfl,
        Nat.sub_zero,
        setLoop_no_preempt (idx != 0) idx a g mask (nr - s) s d1,
        setLoop_no_preempt (idx != 0) idx a g mask nr 0 d]
    rw [Prod.mk.injEq]
    refine ⟨?_, rfl⟩
    rw [hs4]
    have hsplit := applyFromTo_split (idx != 0) idx a g s (nr - s) 0 d
    have h1 : s + (nr - s) = nr := by omega
    rw [h1, Nat.zero_add] at hsplit
    rw [hsplit]
  · rw [hrun d 0 (fun _ => false) rfl rfl, Nat.sub_zero,
        setLoop_no_preempt (idx != 0) idx a g mask nr 0 d]

/-- Witness for C5: a two-frame range on the host view with a preemption
request at offset 1. -/
theorem C5_witness :
    ∃ s : Nat, ((p2m_set_mem_access dW2 (some 0) 2 0 0 2 0 prW).2 : Int) = (s : Int) ∧
      0 < s ∧ s < 2 ∧
      (p2m_set_mem_access dW2 (some 0) 2 0 0 2 0 prW).1 =
        applyFromTo (0 != 0) 0 2 0 0 s dW2 ∧
      p2m_set_mem_access (p2m_set_mem_access dW2 (some 0) 2 0 0 2 0 prW).1
          (some 0) 2 s 0 2 0 (fun _ => false) =
        ((p2m_set_mem_access dW2 (some 0) 2 0 0 2 0 (fun _ => false)).1, 0) ∧
      (p2m_set_mem_access dW2 (some 0) 2 0 0 2 0 (fun _ => false)).2 = 0 :=
  C5_preemption_roundtrip dW2 0 2 0 2 0 prW 2
    (p2m_set_mem_access dW2 (some 0) 2 0 0 2 0 prW).1
    (p2m_set_mem_access dW2 (some 0) 2 0 0 2 0 prW).2
    (Or.inl rfl) rfl rfl (by decide)

theorem _mm_lock_not_bug (me : Nat) (c : Bool) (st : MmState) (i : Nat) (fn : String)
    (level : Int) (isRec : Bool)
    (h : ((mm_locked_by_me me (st.locks i) && isRec) ||
          decide (st.level ≤ _lock_level c level)) = true) :
    _mm_lock me c st i fn level isRec ≠ Except.error Fatal.bugOrder := by
  unfold _mm_lock
  have hcond : ((!(mm_locked_by_me me (st.locks i) && isRec)) &&
      decide (_lock_level c level < st.level)) = false := by
    by_cases hlt : _lock_level c level < st.level
    · have h2 : decide (st.level ≤ _lock_level c level) = false :=
        decide_eq_false (not_le.mpr hlt)
      rw [h2, Bool.or_false] at h
      rw [h]
      rfl
    · rw [decide_eq_false hlt, Bool.and_false]
  rw [hcond, if_neg Bool.false_ne_true]
  by_cases h1 : (spin_lock_recursive me (st.locks i)).recurse_cnt = 1
  · rw [if_pos h1]
    simp
  · rw [if_neg h1]
    cases isRec
    · rw [show (!false) = true from rfl, if_pos rfl]
      simp
    · rw [show (!true) = false from rfl, if_neg Bool.false_ne_true]
      simp

theorem _mm_lock_ok (me : Nat) (c : Bool) (st : MmState) (i : Nat) (fn : String)
    (level : Int) (isRec : Bool)
    (h : ((mm_locked_by_me me (st.locks i) && isRec) ||
          decide (st.level ≤ _lock_level c level)) = true)
    (hc : (isRec || decide ((st.locks i).recurse_cnt = 0)) = true) :
    ∃ st1, _mm_lock me c st i fn level isRec = Except.ok st1 := by
  unfold _mm_lock
  have hcond : ((!(mm_locked_by_me me (st.locks i) && isRec)) &&
      decide (_lock_level c level < st.level)) = false := by
    by_cases hlt : _lock_level c level < st.level
    · have h2 : decide (st.level ≤ _lock_level c level) = false :=
        decide_eq_false (not_le.mpr hlt)
      rw [h2, Bool.or_false] at h
      rw [h]
      rfl
    · rw [decide_eq_false hlt, Bool.and_false]
  rw [hcond, if_neg Bool.false_ne_true]
  cases isRec
  · rw [Bool.false_or] at hc
    have hc0 : (st.locks i).recurse_cnt = 0 := of_decide_eq_true hc
    have h1 : (spin_lock_recursive me (st.locks i)).recurse_cnt = 1 := by
      unfold spin_lock_recursive
      by_cases hcpu : ((st.locks i).recurse_cpu == some me) = true
      · rw [if_pos hcpu]
        show (st.locks i).recurse_cnt + 1 = 1
        rw [hc0]
      · rw [if_neg hcpu]
        show (st.locks i).recurse_cnt + 1 = 1
        rw [hc0]
    rw [if_pos h1]
    exact ⟨_, rfl⟩
  · by_cases h1 : (spin_lock_recursive me (st.locks i)).recurse_cnt = 1
    · rw [if_pos h1]
      exact ⟨_, rfl⟩
    · rw [if_neg h1, show (!true) = false from rfl, if_neg Bool.false_ne_true]
      exact ⟨_, rfl⟩

theorem runAcqs_no_bugOrder : ∀ (l : List Acq) (me : Nat) (st : MmState),
    tierOk me st l = true → runAcqs me st l ≠ Except.error Fatal.bugOrder := by
  intro l
  induction l with
  | nil =>
    intro me st _
    simp [runAcqs]
  | cons a rest ih =>
    intro me st h
    unfold tierOk at h
    rw [Bool.and_eq_true] at h
    obtain ⟨h1, h2⟩ := h
    unfold runAcqs
    cases hstep : _mm_lock me a.isControl st a.i "caller" a.level a.isRec with
    | error e =>
      have hnb := _mm_lock_not_bug me a.isControl st a.i "caller" a.level a.isRec h1
      rw [hstep] at hnb
      cases e
      · exact absurd rfl hnb
      · simp
    | ok st1 =>
      rw [hstep] at h2
      exact ih me st1 h2

theorem runAcqs_ok : ∀ (l : List Acq) (me : Nat) (st : MmState),
    tierOk me st l = true → cntOk me st l = true →
    ∃ st1, runAcqs me st l = Except.ok st1 := by
  intro l
  induction l with
  | nil =>
    intro me st _ _
    exact ⟨st, rfl⟩
  | cons a rest ih =>
    intro me st ht hc
    unfold tierOk at ht
    rw [Bool.and_eq_true] at ht
    obtain ⟨ht1, ht2⟩ := ht
    unfold cntOk at hc
    rw [Bool.and_eq_true] at hc
    obtain ⟨hc1, hc2⟩ := hc
    obtain ⟨st1, hstep⟩ := _mm_lock_ok me a.isControl st a.i "caller" a.level a.isRec ht1 hc1
    unfold runAcqs
    rw [hstep]
    rw [hstep] at ht2 hc2
    exact ih me st1 ht2 hc2

theorem _mm_lock_below_bug (me : Nat) (c : Bool) (st : MmState) (i : Nat) (fn : String)
    (level : Int) (h : _lock_level c level < st.level) :
    _mm_lock me c st i fn level false = Except.error Fatal.bugOrder := by
  unfold _mm_lock
  have hcond : ((!(mm_locked_by_me me (st.locks i) && false)) &&
      decide (_lock_level c level < st.level)) = true := by
    simp [h]
  rw [hcond]
  rw [if_pos rfl]

/-- C3: for any acquisition sequence by one execution unit in which every
acquisition that performs the level check (every non-recursive acquisition)
requests a biased tier at or above the tracked level, the lock-order BUG is
never raised — and if additionally no held lock is re-taken without the
recursion flag, the whole sequence succeeds with no fatality of any kind;
conversely a non-recursive acquisition whose biased tier is strictly below
the tracked level deterministically hits the BUG path. -/
theorem C3_lock_order_discipline :
    (∀ (me : Nat) (st : MmState) (l : List Acq),
       tierOk me st l = true → runAcqs me st l ≠ Except.error Fatal.bugOrder) ∧
    (∀ (me : Nat) (st : MmState) (l : List Acq),
       tierOk me st l = true → cntOk me st l = true →
       ∃ st1, runAcqs me st l = Except.ok st1) ∧
    (∀ (me : Nat) (c : Bool) (st : MmState) (i : Nat) (fn : String) (level : Int),
       _lock_level c level < st.level →
       _mm_lock me c st i fn level false = Except.error Fatal.bugOrder) :=
  ⟨fun me st l h => runAcqs_no_bugOrder l me st h,
   fun me st l ht hc => runAcqs_ok l me st ht hc,
   fun me c st i fn level h => _mm_lock_below_bug me c st i fn level h⟩

/-- Witness for C3: a two-acquisition tier-respecting sequence from the idle
state, and a below-level acquisition from a raised state. -/
theorem C3_witness :
    (runAcqs 0 st0 seq0 ≠ Except.error Fatal.bugOrder) ∧
    (∃ st1, runAcqs 0 st0 seq0 = Except.ok st1) ∧
    _mm_lock 0 false stHigh 0 "caller" MM_LOCK_ORDER_p2m false =
      Except.error Fatal.bugOrder :=
  ⟨C3_lock_order_discipline.1 0 st0 seq0 (by decide),
   C3_lock_order_discipline.2.1 0 st0 seq0 (by decide) (by decide),
   C3_lock_order_discipline.2.2 0 false stHigh 0 "caller" MM_LOCK_ORDER_p2m (by decide)⟩

theorem _mm_lock_fresh (me : Nat) (c : Bool) (st : MmState) (i : Nat) (level : Int)
    (hcpu : (st.locks i).recurse_cpu = none)
    (hcnt : (st.locks i).recurse_cnt = 0)
    (hlev : st.level ≤ _lock_level c level) :
    _mm_lock me c st i "caller" level true = Except.ok (lockedSt me c i level st 1) := by
  unfold _mm_lock
  have hspin : spin_lock_recursive me (st.locks i) =
      { st.locks i with recurse_cpu := some me, recurse_cnt := 1 } := by
    unfold spin_lock_recursive
    rw [hcpu, show ((none : Option Nat) == some me) = false from rfl,
        if_neg Bool.false_ne_true, hcnt]
  have hcond : ((!(mm_locked_by_me me (st.locks i) && true)) &&
      decide (_lock_level c level < st.level)) = false := by
    rw [decide_eq_false (not_lt.mpr hlev), Bool.and_false]
  rw [hcond, if_neg Bool.false_ne_true, hspin]
  rw [if_pos rfl]
  rfl

theorem _mm_lock_rec_step (me : Nat) (c : Bool) (i : Nat) (level : Int) (st : MmState)
    (j : Nat) (hj : 1 ≤ j) :
    _mm_lock me c (lockedSt me c i level st j) i "caller" level true =
      Except.ok (lockedSt me c i level st (j + 1)) := by
  have hne : j + 1 ≠ 1 := by omega
  have hacc : (lockedSt me c i level st j).locks i =
      { recurse_cpu := some me, recurse_cnt := j, locker_function := "caller"
        unlock_level := st.level } := by
    unfold lockedSt
    simp
  unfold _mm_lock
  rw [hacc]
  rw [show mm_locked_by_me me
      ({ recurse_cpu := some me, recurse_cnt := j, locker_function := "caller"
         unlock_level := st.level } : MmLockT) = true from by
    unfold mm_locked_by_me
    simp]
  rw [show spin_lock_recursive me
      ({ recurse_cpu := some me, recurse_cnt := j, locker_function := "caller"
         unlock_level := st.level } : MmLockT) =
      { recurse_cpu := some me, recurse_cnt := j + 1, locker_function := "caller"
        unlock_level := st.level } from by
    unfold spin_lock_recursive
    simp]
  rw [show ((!(true && true)) &&
      decide (_lock_level c level < (lockedSt me c i level st j).level)) = false from by simp]
  rw [if_neg Bool.false_ne_true, if_neg hne,
      show (!true) = false from rfl, if_neg Bool.false_ne_true]
  refine congrArg Except.ok ?_
  unfold lockedSt
  congr 1
  funext t
  by_cases ht : t = i
  · simp [ht]
  · simp [ht]

theorem iterLockRec_from_locked (me : Nat) (c : Bool) (i : Nat) (level : Int)
    (st : MmState) :
    ∀ (k j : Nat), 1 ≤ j →
    iterLockRec me c i level k (lockedSt me c i level st j) =
      Except.ok (lockedSt me c i level st (j + k)) := by
  intro k
  induction k with
  | zero => intro j hj; rfl
  | succ m ih =>
    intro j hj
    unfold iterLockRec
    rw [_mm_lock_rec_step me c i level st j hj]
    dsimp only
    rw [ih (j + 1) (by omega)]
    have h : j + 1 + m = j + (m + 1) := by omega
    rw [h]

theorem iterLockRec_closed (me : Nat) (c : Bool) (i : Nat) (level : Int) (st : MmState)
    (hcpu : (st.locks i).recurse_cpu = none) (hcnt : (st.locks i).recurse_cnt = 0)
    (hlev : st.level ≤ _lock_level c level) (n : Nat) (hn : 1 ≤ n) :
    iterLockRec me c i level n st = Except.ok (lockedSt me c i level st n) := by
  obtain ⟨m, rfl⟩ : ∃ m, n = m + 1 := ⟨n - 1, by omega⟩
  unfold iterLockRec
  rw [_mm_lock_fresh me c st i level hcpu hcnt hlev]
  dsimp only
  rw [iterLockRec_from_locked me c i level st m 1 (by omega)]
  have h : 1 + m = m + 1 := by omega
  rw [h]

theorem mm_unlock_inner (st : MmState) (i : Nat) (h2 : 2 ≤ (st.locks i).recurse_cnt) :
    mm_unlock st i =
      { st with locks := fun t => if t = i then
          { st.locks i with recurse_cnt := (st.locks i).recurse_cnt - 1 }
        else st.locks t } := by
  unfold mm_unlock spin_unlock_recursive
  rw [if_neg (show ¬(st.locks i).recurse_cnt = 1 from by omega)]
  congr 1
  funext t
  by_cases ht : t = i
  · simp only [ht, if_pos rfl]
    rw [if_neg (show ¬((st.locks i).recurse_cnt - 1 = 0) from by omega)]
  · simp [ht]

theorem mm_unlock_locked (me : Nat) (c : Bool) (i : Nat) (level : Int) (st : MmState)
    (n : Nat) (h2 : 2 ≤ n) :
    mm_unlock (lockedSt me c i level st n) i = lockedSt me c i level st (n - 1) := by
  rw [mm_unlock_inner _ i (by unfold lockedSt; simp; omega)]
  unfold lockedSt
  congr 1
  funext t
  by_cases ht : t = i
  · simp [ht]
  · simp [ht]

theorem mm_unlock_locked_one (me : Nat) (c : Bool) (i : Nat) (level : Int) (st : MmState) :
    mm_unlock (lockedSt me c i level st 1) i =
      { level := st.level
        locks := fun t => if t = i then
            { recurse_cpu := none, recurse_cnt := 0, locker_function := "nobody"
              unlock_level := st.level }
          else st.locks t } := by
  unfold mm_unlock spin_unlock_recursive
  rw [if_pos (show ((lockedSt me c i level st 1).locks i).recurse_cnt = 1 from by
    unfold lockedSt; simp)]
  congr 1
  · unfold lockedSt
    simp
  · funext t
    by_cases ht : t = i
    · simp [ht, lockedSt]
    · simp [ht, lockedSt]

theorem iterUnlock_closed (me : Nat) (c : Bool) (i : Nat) (level : Int) (st : MmState) :
    ∀ (k n : Nat), k < n →
    iterUnlock i k (lockedSt me c i level st n) = lockedSt me c i level st (n - k) := by
  intro k
  induction k with
  | zero => intro n h; rfl
  | succ m ih =>
    intro n h
    unfold iterUnlock
    rw [mm_unlock_locked me c i level st n (by omega), ih (n - 1) (by omega)]
    have hx : n - 1 - m = n - (m + 1) := by omega
    rw [hx]

theorem iterUnlock_full (me : Nat) (c : Bool) (i : Nat) (level : Int) (st : MmState) :
    ∀ n : Nat, 1 ≤ n →
    iterUnlock i n (lockedSt me c i level st n) =
      { level := st.level
        locks := fun t => if t = i then
            { recurse_cpu := none, recurse_cnt := 0, locker_function := "nobody"
              unlock_level := st.level }
          else st.locks t } := by
  intro n
  induction n with
  | zero => intro h; omega
  | succ m ih =>
    intro _
    by_cases hm : m = 0
    · subst hm
      show iterUnlock i 0 (mm_unlock (lockedSt me c i level st 1) i) = _
      rw [mm_unlock_locked_one me c i level st]
      rfl
    · show iterUnlock i m (mm_unlock (lockedSt me c i level st (m + 1)) i) = _
      rw [mm_unlock_locked me c i level st (m + 1) (by omega)]
      have hx : m + 1 - 1 = m := by omega
      rw [hx]
      exact ih (by omega)

theorem _mm_write_lock_fresh (me : Nat) (c : Bool) (st : RwSt) (fn : String) (level : Int)
    (hlk : st.lock.locker = none) (hcnt : st.lock.recurse_count = 0)
    (hlev : st.level ≤ _lock_level c level) :
    _mm_write_lock me c st fn level = Except.ok (wLockedSt me c level st fn 1) := by
  unfold _mm_write_lock
  have h1 : mm_write_locked_by_me me st.lock = false := by
    unfold mm_write_locked_by_me
    rw [hlk]
    rfl
  rw [h1, show (!false) = true from rfl, if_pos rfl,
      decide_eq_false (not_lt.mpr hlev), if_neg Bool.false_ne_true, hcnt]
  rfl

theorem _mm_write_lock_rec_step (me : Nat) (c : Bool) (level : Int) (st : RwSt)
    (fn fn2 : String) (j : Nat) :
    _mm_write_lock me c (wLockedSt me c level st fn j) fn2 level =
      Except.ok (wLockedSt me c level st fn (j + 1)) := by
  unfold _mm_write_lock wLockedSt
  simp [mm_write_locked_by_me]

theorem iterWLock_from_locked (me : Nat) (c : Bool) (level : Int) (st : RwSt) :
    ∀ (k j : Nat),
    iterWLock me c level k (wLockedSt me c level st "caller" j) =
      Except.ok (wLockedSt me c level st "caller" (j + k)) := by
  intro k
  induction k with
  | zero => intro j; rfl
  | succ m ih =>
    intro j
    unfold iterWLock
    rw [_mm_write_lock_rec_step me c level st "caller" "caller" j]
    dsimp only
    rw [ih (j + 1)]
    have h : j + 1 + m = j + (m + 1) := by omega
    rw [h]

theorem iterWLock_closed (me : Nat) (c : Bool) (level : Int) (st : RwSt)
    (hlk : st.lock.locker = none) (hcnt : st.lock.recurse_count = 0)
    (hlev : st.level ≤ _lock_level c level) (n : Nat) (hn : 1 ≤ n) :
    iterWLock me c level n st = Except.ok (wLockedSt me c level st "caller" n) := by
  obtain ⟨m, rfl⟩ : ∃ m, n = m + 1 := ⟨n - 1, by omega⟩
  unfold iterWLock
  rw [_mm_write_lock_fresh me c st "caller" level hlk hcnt hlev]
  dsimp only
  rw [iterWLock_from_locked me c level st m 1]
  have h : 1 + m = m + 1 := by omega
  rw [h]

theorem mm_write_unlock_locked (me : Nat) (c : Bool) (level : Int) (st : RwSt)
    (fn : String) (j : Nat) (hj : 2 ≤ j) :
    mm_write_unlock (wLockedSt me c level st fn j) = wLockedSt me c level st fn (j - 1) := by
  have hc : ¬((wLockedSt me c level st fn j).lock.recurse_count - 1 = 0) := by
    unfold wLockedSt
    simp
    omega
  unfold mm_write_unlock
  rw [if_pos hc]
  unfold wLockedSt
  simp

theorem mm_write_unlock_locked_one (me : Nat) (c : Bool) (level : Int) (st : RwSt)
    (fn : String) :
    mm_write_unlock (wLockedSt me c level st fn 1) =
      { level := st.level
        lock := { locker := none, locker_function := "nobody", unlock_level := st.level
                  recurse_count := 0 } } := by
  unfold mm_write_unlock wLockedSt
  rw [if_neg (by simp)]

theorem iterWUnlock_closed (me : Nat) (c : Bool) (level : Int) (st : RwSt) :
    ∀ (k n : Nat), k < n →
    iterWUnlock k (wLockedSt me c level st "caller" n) =
      wLockedSt me c level st "caller" (n - k) := by
  intro k
  induction k with
  | zero => intro n h; rfl
  | succ m ih =>
    intro n h
    unfold iterWUnlock
    rw [mm_write_unlock_locked me c level st "caller" n (by omega), ih (n - 1) (by omega)]
    have hx : n - 1 - m = n - (m + 1) := by omega
    rw [hx]

theorem iterWUnlock_full (me : Nat) (c : Bool) (level : Int) (st : RwSt) :
    ∀ n : Nat, 1 ≤ n →
    iterWUnlock n (wLockedSt me c level st "caller" n) =
      { level := st.level
        lock := { locker := none, locker_function := "nobody", unlock_level := st.level
                  recurse_count := 0 } } := by
  intro n
  induction n with
  | zero => intro h; omega
  | succ m ih =>
    intro _
    by_cases hm : m = 0
    · subst hm
      show iterWUnlock 0 (mm_write_unlock (wLockedSt me c level st "caller" 1)) = _
      rw [mm_write_unlock_locked_one me c level st "caller"]
      rfl
    · show iterWUnlock m (mm_write_unlock (wLockedSt me c level st "caller" (m + 1))) = _
      rw [mm_write_unlock_locked me c level st "caller" (m + 1) (by omega)]
      have hx : m + 1 - 1 = m := by omega
      rw [hx]
      exact ih (by omega)

/-- C6: for the exclusive lock and for the write lock alike, N recursive
acquisitions by the owner need exactly N releases: after k < N releases the
lock is still owned with depth N−k and the tracked level still sits at the
lock's tier; only the N-th release clears owner and tag and restores the
tracked level to the value saved at the first acquisition. -/
theorem C6_recursive_release_counts :
    (∀ (me : Nat) (c : Bool) (i : Nat) (level : Int) (st : MmState) (n : Nat),
      1 ≤ n →
      (st.locks i).recurse_cpu = none →
      (st.locks i).recurse_cnt = 0 →
      st.level ≤ _lock_level c level →
      ∃ stN, iterLockRec me c i level n st = Except.ok stN ∧
        (∀ k, k < n →
          ((iterUnlock i k stN).locks i).recurse_cnt = n - k ∧
          ((iterUnlock i k stN).locks i).recurse_cpu = some me ∧
          (iterUnlock i k stN).level = _lock_level c level) ∧
        ((iterUnlock i n stN).locks i).recurse_cnt = 0 ∧
        ((iterUnlock i n stN).locks i).recurse_cpu = none ∧
        ((iterUnlock i n stN).locks i).locker_function = "nobody" ∧
        (iterUnlock i n stN).level = st.level) ∧
    (∀ (me : Nat) (c : Bool) (level : Int) (st : RwSt) (n : Nat),
      1 ≤ n →
      st.lock.locker = none →
      st.lock.recurse_count = 0 →
      st.level ≤ _lock_level c level →
      ∃ stN, iterWLock me c level n st = Except.ok stN ∧
        (∀ k, k < n →
          (iterWUnlock k stN).lock.recurse_count = n - k ∧
          (iterWUnlock k stN).lock.locker = some me ∧
          (iterWUnlock k stN).level = _lock_level c level) ∧
        (iterWUnlock n stN).lock.recurse_count = 0 ∧
        (iterWUnlock n stN).lock.locker = none ∧
        (iterWUnlock n stN).lock.locker_function = "nobody" ∧
        (iterWUnlock n stN).level = st.level) := by
  constructor
  · intro me c i level st n hn hcpu hcnt hlev
    refine ⟨lockedSt me c i level st n, iterLockRec_closed me c i level st hcpu hcnt hlev n hn,
      fun k hk => ?_, ?_, ?_, ?_, ?_⟩
    · rw [iterUnlock_closed me c i level st k n hk]
      unfold lockedSt
      refine ⟨by simp, by simp, by simp⟩
    · rw [iterUnlock_full me c i level st n hn]
      simp
    · rw [iterUnlock_full me c i level st n hn]
      simp
    · rw [iterUnlock_full me c i level st n hn]
      simp
    · rw [iterUnlock_full me c i level st n hn]
  · intro me c level st n hn hlk hcnt hlev
    refine ⟨wLockedSt me c level st "caller" n, iterWLock_closed me c level st hlk hcnt hlev n hn,
      fun k hk => ?_, ?_, ?_, ?_, ?_⟩
    · rw [iterWUnlock_closed me c level st k n hk]
      unfold wLockedSt
      exact ⟨rfl, rfl, rfl⟩
    · rw [iterWUnlock_full me c level st n hn]
    · rw [iterWUnlock_full me c level st n hn]
    · rw [iterWUnlock_full me c level st n hn]
    · rw [iterWUnlock_full me c level st n hn]

/-- Witness for C6: two nested acquisitions of each lock kind from the idle
state, fully released by exactly two releases. -/
theorem C6_witness :
    (∃ stN, iterLockRec 0 false 0 MM_LOCK_ORDER_p2m 2 st0 = Except.ok stN ∧
      (∀ k, k < 2 →
        ((iterUnlock 0 k stN).locks 0).recurse_cnt = 2 - k ∧
        ((iterUnlock 0 k stN).locks 0).recurse_cpu = some 0 ∧
        (iterUnlock 0 k stN).level = _lock_level false MM_LOCK_ORDER_p2m) ∧
      ((iterUnlock 0 2 stN).locks 0).recurse_cnt = 0 ∧
      ((iterUnlock 0 2 stN).locks 0).recurse_cpu = none ∧
      ((iterUnlock 0 2 stN).locks 0).locker_function = "nobody" ∧
      (iterUnlock 0 2 stN).level = st0.level) ∧
    (∃ stN, iterWLock 0 false MM_LOCK_ORDER_p2m 2 rw0 = Except.ok stN ∧
      (∀ k, k < 2 →
        (iterWUnlock k stN).lock.recurse_count = 2 - k ∧
        (iterWUnlock k stN).lock.locker = some 0 ∧
        (iterWUnlock k stN).level = _lock_level false MM_LOCK_ORDER_p2m) ∧
      (iterWUnlock 2 stN).lock.recurse_count = 0 ∧
      (iterWUnlock 2 stN).lock.locker = none ∧
      (iterWUnlock 2 stN).lock.locker_function = "nobody" ∧
      (iterWUnlock 2 stN).level = rw0.level) :=
  ⟨C6_recursive_release_counts.1 0 false 0 MM_LOCK_ORDER_p2m st0 2 (by decide) rfl rfl
     (by decide),
   C6_recursive_release_counts.2 0 false MM_LOCK_ORDER_p2m rw0 2 (by decide) rfl rfl
     (by decide)⟩

theorem p2m_lock_fresh (me : Nat) (c : Bool) (s : P2mLk)
    (hlk : s.lock.locker = none) (hcnt : s.lock.recurse_count = 0)
    (hdf : s.defer_flush = 0)
    (hlev : s.level ≤
      _lock_level c (if s.isAlt then MM_LOCK_ORDER_altp2m else MM_LOCK_ORDER_p2m)) :
    p2m_lock me c s = Except.ok (p2mLockedSt me c s 1) := by
  have hw := _mm_write_lock_fresh me c { level := s.level, lock := s.lock } "p2m_lock"
      (if s.isAlt then MM_LOCK_ORDER_altp2m else MM_LOCK_ORDER_p2m) hlk hcnt hlev
  unfold p2m_lock
  rw [hw]
  dsimp only
  unfold wLockedSt p2mLockedSt
  rw [hdf]

theorem p2m_lock_locked_step (me : Nat) (c : Bool) (s : P2mLk) (j : Nat) :
    p2m_lock me c (p2mLockedSt me c s j) = Except.ok (p2mLockedSt me c s (j + 1)) := by
  unfold p2m_lock _mm_write_lock p2mLockedSt
  simp [mm_write_locked_by_me]

theorem p2m_unlock_locked (me : Nat) (c : Bool) (s : P2mLk) (j : Nat) (hj : 2 ≤ j) :
    p2m_unlock (p2mLockedSt me c s j) = p2mLockedSt me c s (j - 1) := by
  have hne : ¬(j - 1 = 0) := by omega
  unfold p2m_unlock mm_write_unlock p2mLockedSt
  simp [hne]

theorem p2m_unlock_locked_one (me : Nat) (c : Bool) (s : P2mLk) :
    p2m_unlock (p2mLockedSt me c s 1) =
      { level := s.level
        lock := { locker := none, locker_function := "nobody", unlock_level := s.level
                  recurse_count := 0 }
        defer_flush := 0
        flushes := s.flushes + 1
        isAlt := s.isAlt } := by
  unfold p2m_unlock p2m_unlock_and_tlb_flush mm_write_unlock p2mLockedSt
  simp

theorem iterP2mLock_from_locked (me : Nat) (c : Bool) (s : P2mLk) :
    ∀ (k j : Nat),
    iterP2mLock me c k (p2mLockedSt me c s j) = Except.ok (p2mLockedSt me c s (j + k)) := by
  intro k
  induction k with
  | zero => intro j; rfl
  | succ m ih =>
    intro j
    unfold iterP2mLock
    rw [p2m_lock_locked_step me c s j]
    dsimp only
    rw [ih (j + 1)]
    have h : j + 1 + m = j + (m + 1) := by omega
    rw [h]

theorem iterP2mLock_closed (me : Nat) (c : Bool) (s : P2mLk)
    (hlk : s.lock.locker = none) (hcnt : s.lock.recurse_count = 0)
    (hdf : s.defer_flush = 0)
    (hlev : s.level ≤
      _lock_level c (if s.isAlt then MM_LOCK_ORDER_altp2m else MM_LOCK_ORDER_p2m))
    (n : Nat) (hn : 1 ≤ n) :
    iterP2mLock me c n s = Except.ok (p2mLockedSt me c s n) := by
  obtain ⟨m, rfl⟩ : ∃ m, n = m + 1 := ⟨n - 1, by omega⟩
  unfold iterP2mLock
  rw [p2m_lock_fresh me c s hlk hcnt hdf hlev]
  dsimp only
  rw [iterP2mLock_from_locked me c s m 1]
  have h : 1 + m = m + 1 := by omega
  rw [h]

theorem iterP2mUnlock_closed (me : Nat) (c : Bool) (s : P2mLk) :
    ∀ (k n : Nat), k < n →
    iterP2mUnlock k (p2mLockedSt me c s n) = p2mLockedSt me c s (n - k) := by
  intro k
  induction k with
  | zero => intro n h; rfl
  | succ m ih =>
    intro n h
    unfold iterP2mUnlock
    rw [p2m_unlock_locked me c s n (by omega), ih (n - 1) (by omega)]
    have hx : n - 1 - m = n - (m + 1) := by omega
    rw [hx]

theorem iterP2mUnlock_full (me : Nat) (c : Bool) (s : P2mLk) :
    ∀ n : Nat, 1 ≤ n →
    iterP2mUnlock n (p2mLockedSt me c s n) =
      { level := s.level
        lock := { locker := none, locker_function := "nobody", unlock_level := s.level
                  recurse_count := 0 }
        defer_flush := 0
        flushes := s.flushes + 1
        isAlt := s.isAlt } := by
  intro n
  induction n with
  | zero => intro h; omega
  | succ m ih =>
    intro _
    by_cases hm : m = 0
    · subst hm
      show iterP2mUnlock 0 (p2m_unlock (p2mLockedSt me c s 1)) = _
      rw [p2m_unlock_locked_one me c s]
      rfl
    · show iterP2mUnlock m (p2m_unlock (p2mLockedSt me c s (m + 1))) = _
      rw [p2m_unlock_locked me c s (m + 1) (by omega)]
      have hx : m + 1 - 1 = m := by omega
      rw [hx]
      exact ih (by omega)

/-- C8: across n nested p2m_lock/p2m_unlock pairs on the same table by one
holder, the defer_flush counter is incremented per lock (after j ≤ n locks it
equals j) and decremented per unlock; the translation-cache flush happens
exactly once, at the outermost unlock when the counter returns to 0 — inner
unlocks leave the flush count untouched. -/
theorem C8_deferred_flush_batching :
    ∀ (me : Nat) (c : Bool) (s : P2mLk) (n : Nat),
    1 ≤ n →
    s.lock.locker = none →
    s.lock.recurse_count = 0 →
    s.defer_flush = 0 →
    s.level ≤
      _lock_level c (if s.isAlt then MM_LOCK_ORDER_altp2m else MM_LOCK_ORDER_p2m) →
    ∃ sN, iterP2mLock me c n s = Except.ok sN ∧
      (∀ j, 1 ≤ j → j ≤ n →
        ∃ sj, iterP2mLock me c j s = Except.ok sj ∧ sj.defer_flush = j) ∧
      (∀ k, k < n →
        (iterP2mUnlock k sN).defer_flush = n - k ∧
        (iterP2mUnlock k sN).flushes = s.flushes) ∧
      (iterP2mUnlock n sN).defer_flush = 0 ∧
      (iterP2mUnlock n sN).flushes = s.flushes + 1 := by
  intro me c s n hn hlk hcnt hdf hlev
  refine ⟨p2mLockedSt me c s n, iterP2mLock_closed me c s hlk hcnt hdf hlev n hn,
    fun j hj1 hjn => ?_, fun k hk => ?_, ?_, ?_⟩
  · exact ⟨p2mLockedSt me c s j, iterP2mLock_closed me c s hlk hcnt hdf hlev j hj1, rfl⟩
  · rw [iterP2mUnlock_closed me c s k n hk]
    exact ⟨rfl, rfl⟩
  · rw [iterP2mUnlock_full me c s n hn]
  · rw [iterP2mUnlock_full me c s n hn]

/-- Witness for C8: two nested lock/unlock pairs on a host-view table. -/
theorem C8_witness :
    ∃ sN, iterP2mLock 0 false 2 pl0 = Except.ok sN ∧
      (∀ j, 1 ≤ j → j ≤ 2 →
        ∃ sj, iterP2mLock 0 false j pl0 = Except.ok sj ∧ sj.defer_flush = j) ∧
      (∀ k, k < 2 →
        (iterP2mUnlock k sN).defer_flush = 2 - k ∧
        (iterP2mUnlock k sN).flushes = pl0.flushes) ∧
      (iterP2mUnlock 2 sN).defer_flush = 0 ∧
      (iterP2mUnlock 2 sN).flushes = pl0.flushes + 1 :=
  C8_deferred_flush_batching 0 false pl0 2 (by decide) rfl rfl rfl (by decide)

end XenMm
